import Mathlib

/-!
Verification of the Stinnnbt trading-bot core against its specification.

The JavaScript source is shallowly embedded: JS numbers are modelled as
exact rationals (`ℚ`), `x.toFixed(1)` as half-up rounding to one decimal,
and divisions whose denominator can be zero in JS (producing NaN/Infinity)
are modelled with `Option ℚ` (`none` = non-finite result) via `jdiv`.
Epoch times are natural numbers of milliseconds.
-/

namespace Stinnnbt

/-- JS `x.toFixed(1)` followed by `parseFloat`: round half-up to one decimal. -/
def roundTenth (q : ℚ) : ℚ := (round (10 * q) : ℤ) / 10

/-- JS division: `none` models the NaN/Infinity produced when the denominator
is zero. -/
def jdiv (a b : ℚ) : Option ℚ := if b = 0 then none else some (a / b)

/-! ## CandleManager (src/js/candles.js, duplicated in src/js/script.js) -/

/-- A market tick as consumed by `CandleManager.addTick`
(`{ price, time, volume }`; `time` in epoch milliseconds). -/
structure Tick where
  price : ℚ
  time : ℕ
  volume : ℚ
deriving DecidableEq, Repr

/-- An OHLCV candle (`symbol` omitted: we model a single symbol's series). -/
@[ext]
structure Candle where
  timestamp : ℕ
  open_ : ℚ
  high : ℚ
  low : ℚ
  close : ℚ
  volume : ℚ
deriving DecidableEq, Repr

/-- `Math.floor(tick.time.getTime() / this.timeframe) * this.timeframe`. -/
def bucketOf (tf : ℕ) (timeMs : ℕ) : ℕ := timeMs / tf * tf

/-- The fresh candle opened when the incoming tick's bucket differs from the
last candle's bucket: `open=high=low=close=price`, `volume = tick.volume`. -/
def freshCandle (ts : ℕ) (t : Tick) : Candle :=
  { timestamp := ts, open_ := t.price, high := t.price, low := t.price,
    close := t.price, volume := t.volume }

/-- The in-bucket update branch of `addTick`:
`high=max, low=min, close=price, volume+=tick.volume`. -/
def mergeTick (c : Candle) (t : Tick) : Candle :=
  { c with high := max c.high t.price, low := min c.low t.price,
           close := t.price, volume := c.volume + t.volume }

/-- `CandleManager.addTick` for one symbol's candle list (`tf` = timeframe in
milliseconds).  The last candle is updated in place when the tick falls in its
bucket, otherwise a new candle is appended; afterwards the oldest candle is
shifted off once the list exceeds 100 entries. -/
def addTick (tf : ℕ) (candles : List Candle) (t : Tick) : List Candle :=
  let ts := bucketOf tf t.time
  let updated :=
    match candles.getLast? with
    | some c =>
        if c.timestamp = ts then candles.dropLast ++ [mergeTick c t]
        else candles ++ [freshCandle ts t]
    | none => [freshCandle ts t]
  if 100 < updated.length then updated.tail else updated

/-- Feeding a tick sequence in order through `addTick`, starting from an empty
series (a freshly initialised symbol). -/
def feedTicks (tf : ℕ) (ts : List Tick) : List Candle :=
  ts.foldl (addTick tf) []

/-! ## Pattern detection (`detectPattern`)

Two variants exist: src/js/candles.js tests six rules, the variant embedded in
src/js/script.js extends this with three further rules.  Both are if-chains
over the last three candles `prev2, prev, current`. -/

/-- The candle-pattern labels the two `detectPattern` variants can return. -/
inductive Pattern where
  | bullishEngulfing | bearishEngulfing | doji | hammer | morningStar
  | shootingStar | eveningStar | bullishHarami | bearishHarami
deriving DecidableEq, Repr

/-- `prev.close < prev.open && current.close > current.open &&
current.close > prev.open && current.open < prev.close`. -/
def bullEngulfCond (prev cur : Candle) : Bool :=
  prev.close < prev.open_ ∧ cur.open_ < cur.close ∧
    prev.open_ < cur.close ∧ cur.open_ < prev.close

/-- `prev.close > prev.open && current.close < current.open &&
current.close < prev.open && current.open > prev.close`. -/
def bearEngulfCond (prev cur : Candle) : Bool :=
  prev.open_ < prev.close ∧ cur.close < cur.open_ ∧
    cur.close < prev.open_ ∧ prev.close < cur.open_

/-- `Math.abs(current.open - current.close) <= (current.high - current.low) * 0.1`. -/
def dojiCond (cur : Candle) : Bool :=
  |cur.open_ - cur.close| ≤ (cur.high - cur.low) * (1 / 10)

/-- `current.close > current.open`, upper wick within `0.3` of the body, body
within `0.3` of the lower wick. -/
def hammerCond (cur : Candle) : Bool :=
  cur.open_ < cur.close ∧
    cur.high - cur.close ≤ (cur.close - cur.open_) * (3 / 10) ∧
    cur.close - cur.open_ ≤ (cur.open_ - cur.low) * (3 / 10)

/-- Three-candle bullish reversal: `prev2` bearish, `prev` small-bodied,
`current` bullish closing above `prev2.open`. -/
def morningStarCond (prev2 prev cur : Candle) : Bool :=
  prev2.close < prev2.open_ ∧
    |prev.open_ - prev.close| ≤ (prev.high - prev.low) * (3 / 10) ∧
    cur.open_ < cur.close ∧ prev2.open_ < cur.close

/-- `current` bearish, lower wick within `0.3` of the body, upper wick at least
twice the body. -/
def shootingStarCond (cur : Candle) : Bool :=
  cur.close < cur.open_ ∧
    cur.open_ - cur.low ≤ (cur.open_ - cur.close) * (3 / 10) ∧
    (cur.open_ - cur.close) * 2 ≤ cur.high - cur.open_

/-- Three-candle bearish reversal (script.js extended variant only). -/
def eveningStarCond (prev2 prev cur : Candle) : Bool :=
  prev2.open_ < prev2.close ∧
    |prev.open_ - prev.close| ≤ (prev.high - prev.low) * (3 / 10) ∧
    cur.close < cur.open_ ∧ cur.close < prev2.open_

/-- `prev` bearish, `current` bullish with body inside `prev`'s body
(script.js extended variant only). -/
def bullHaramiCond (prev cur : Candle) : Bool :=
  prev.close < prev.open_ ∧ cur.open_ < cur.close ∧
    prev.close < cur.open_ ∧ cur.close < prev.open_

/-- `prev` bullish, `current` bearish with body inside `prev`'s body
(script.js extended variant only). -/
def bearHaramiCond (prev cur : Candle) : Bool :=
  prev.open_ < prev.close ∧ cur.close < cur.open_ ∧
    cur.open_ < prev.close ∧ prev.open_ < cur.close

/-- The if-chain of `CandleManager.detectPattern` in src/js/candles.js applied
to the last three candles `prev2, prev, current`. -/
def detectPattern3 (prev2 prev cur : Candle) : Option Pattern :=
  if bullEngulfCond prev cur then some .bullishEngulfing
  else if bearEngulfCond prev cur then some .bearishEngulfing
  else if dojiCond cur then some .doji
  else if hammerCond cur then some .hammer
  else if morningStarCond prev2 prev cur then some .morningStar
  else if shootingStarCond cur then some .shootingStar
  else none

/-- The if-chain of the extended `detectPattern` in src/js/script.js. -/
def detectPatternExt3 (prev2 prev cur : Candle) : Option Pattern :=
  if bullEngulfCond prev cur then some .bullishEngulfing
  else if bearEngulfCond prev cur then some .bearishEngulfing
  else if dojiCond cur then some .doji
  else if hammerCond cur then some .hammer
  else if morningStarCond prev2 prev cur then some .morningStar
  else if shootingStarCond cur then some .shootingStar
  else if eveningStarCond prev2 prev cur then some .eveningStar
  else if bullHaramiCond prev cur then some .bullishHarami
  else if bearHaramiCond prev cur then some .bearishHarami
  else none

/-- `detectPattern` on a whole candle series: `null` below three candles,
otherwise the if-chain on `candles.slice(-3)` (candles.js variant). -/
def detectPattern (candles : List Candle) : Option Pattern :=
  match candles.drop (candles.length - 3) with
  | [p2, p1, c] => detectPattern3 p2 p1 c
  | _ => none

/-- The candles.js rule list in documented order, as (label, test) pairs. -/
def patternRules : List (Pattern × (Candle → Candle → Candle → Bool)) :=
  [(.bullishEngulfing, fun _ p c => bullEngulfCond p c),
   (.bearishEngulfing, fun _ p c => bearEngulfCond p c),
   (.doji, fun _ _ c => dojiCond c),
   (.hammer, fun _ _ c => hammerCond c),
   (.morningStar, fun p2 p c => morningStarCond p2 p c),
   (.shootingStar, fun _ _ c => shootingStarCond c)]

/-- The script.js extended rule list in documented order. -/
def patternRulesExt : List (Pattern × (Candle → Candle → Candle → Bool)) :=
  patternRules ++
  [(.eveningStar, fun p2 p c => eveningStarCond p2 p c),
   (.bullishHarami, fun _ p c => bullHaramiCond p c),
   (.bearishHarami, fun _ p c => bearHaramiCond p c)]

/-! ## Signal confirmation by candle pattern (src/js/script.js) -/

/-- Trade direction (`'CALL'` / `'PUT'`). -/
inductive TradeType where
  | call | put
deriving DecidableEq, Repr

/-- A directional trade signal as produced by the strategy functions. -/
structure Signal where
  shouldTrade : Bool
  tradeType : TradeType
deriving DecidableEq, Repr

/-- `confirmSignalWithPattern(tradeType, pattern)` (script.js lines 481-488):
no pattern confirms nothing; `BullishEngulfing`/`Hammer`/`MorningStar` confirm
CALL, `BearishEngulfing`/`ShootingStar` confirm PUT, `Doji` confirms either. -/
def confirmSignalWithPattern (tt : TradeType) (pattern : Option Pattern) : Bool :=
  match pattern with
  | none => false
  | some pat =>
      (tt = .call ∧ (pat = .bullishEngulfing ∨ pat = .hammer ∨ pat = .morningStar)) ∨
      (tt = .put ∧ (pat = .bearishEngulfing ∨ pat = .shootingStar)) ∨
      pat = .doji

/-- The pattern-gating step of `getTradeSignal` (script.js lines 462-470):
when `useCandlePatterns` is set and the raw signal wants to trade,
`shouldTrade` is replaced by the pattern confirmation; nothing else changes. -/
def applyPatternFilter (useCandlePatterns : Bool) (sig : Signal)
    (pattern : Option Pattern) : Signal :=
  if sig.shouldTrade && useCandlePatterns then
    { sig with shouldTrade := confirmSignalWithPattern sig.tradeType pattern }
  else sig

/-- The claim's notion of a concordant pattern, written from the spec's words:
a bullish pattern confirms CALL, a bearish one PUT, Doji either. -/
def concordantPattern (tt : TradeType) (pattern : Option Pattern) : Prop :=
  ∃ pat, pattern = some pat ∧
    ((pat = .bullishEngulfing ∨ pat = .hammer ∨ pat = .morningStar) ∧ tt = .call ∨
     (pat = .bearishEngulfing ∨ pat = .shootingStar) ∧ tt = .put ∨
     pat = .doji)

instance (tt : TradeType) (p : Option Pattern) :
    Decidable (concordantPattern tt p) :=
  match p with
  | none => isFalse (by rintro ⟨pat, h, _⟩; exact Option.noConfusion h)
  | some pat =>
      decidable_of_iff
        ((pat = .bullishEngulfing ∨ pat = .hammer ∨ pat = .morningStar) ∧ tt = .call ∨
         (pat = .bearishEngulfing ∨ pat = .shootingStar) ∧ tt = .put ∨ pat = .doji)
        (by
          unfold concordantPattern
          constructor
          · intro h; exact ⟨pat, rfl, h⟩
          · rintro ⟨q, hq, h⟩; cases Option.some.inj hq; exact h)

/-! ## IndicatorManager (src/js/indicators.js and src/unnamed/part_001)

The indicators.js functions take candle lists; the part_001 duplicates take
lists of closing prices.  Where a JS division can have a zero denominator the
embedding returns `Option ℚ` through `jdiv`. -/

/-- Sum of gains and sum of losses over the consecutive differences of a close
list, as accumulated by the RSI loops (`diff > 0` feeds gains, otherwise
`-diff` feeds losses). -/
def gainsLosses (l : List ℚ) : ℚ × ℚ :=
  (l.zip l.tail).foldl
    (fun gl p => if p.1 < p.2 then (gl.1 + (p.2 - p.1), gl.2) else (gl.1, gl.2 + (p.1 - p.2)))
    (0, 0)

/-- `IndicatorManager.calculateRSI` (src/js/indicators.js lines 47-61):
below 15 candles returns 0; otherwise `rs = avgGain / (avgLoss || 1)` and
`RSI = 100 - 100/(1+rs)`. -/
def calculateRSI (candles : List Candle) : ℚ :=
  if candles.length < 15 then 0
  else
    let closes := candles.map (·.close)
    let window := closes.drop (closes.length - 15)
    let gl := gainsLosses window
    let avgGain := gl.1 / 14
    let avgLoss := gl.2 / 14
    let rs := avgGain / (if avgLoss = 0 then 1 else avgLoss)
    100 - 100 / (1 + rs)

/-- `IndicatorManager.calculateRSI` of src/unnamed/part_001 (lines 57-73),
on a list of closes: guard is `closes.length < 14`; at exactly 14 closes the
loop reads `closes[-1]` (undefined), so the result is NaN (`none`); the
`avgLoss === 0` branch sets `rs = 100`. -/
def calculateRSI_p1 (closes : List ℚ) : Option ℚ :=
  if closes.length < 14 then some 0
  else if closes.length = 14 then none
  else
    let window := closes.drop (closes.length - 15)
    let gl := gainsLosses window
    let avgGain := gl.1 / 14
    let avgLoss := gl.2 / 14
    let rs := if avgLoss = 0 then 100 else avgGain / avgLoss
    some (100 - 100 / (1 + rs))

/-- `calculateMA` (arithmetic mean of the last `period` closes; 0 below
`period` candles). -/
def calculateMA (closes : List ℚ) (period : ℕ) : ℚ :=
  if closes.length < period then 0
  else (closes.drop (closes.length - period)).sum / period

/-- `IndicatorManager.calculateVolatility` (src/js/indicators.js lines
220-227): population stddev of the last 20 closes divided by their mean,
times 100.  `Math.sqrt` is not rational, so the square root is a parameter;
any model of it must send 0 to 0.  The division by `mean` is unguarded in the
source, hence `jdiv`. -/
def calculateVolatility (sqrtFn : ℚ → ℚ) (candles : List Candle) : Option ℚ :=
  if candles.length < 20 then some 0
  else
    let prices := (candles.map (·.close)).drop (candles.length - 20)
    let mean := prices.sum / 20
    let variance := (prices.map (fun p => (p - mean) ^ 2)).sum / 20
    (jdiv (sqrtFn variance) mean).map (· * 100)

/-- `IndicatorManager.calculateStochastic` of src/unnamed/part_001 (lines
153-163): `%K = (close - lowestLow)/(highestHigh - lowestLow) × 100` with an
UNGUARDED denominator (the indicators.js sibling uses `|| 1` instead), and
`%D` the 3-period MA of the constant list `[k, k, k]`, i.e. `k` itself. -/
def calculateStochastic_p1 (candles : List Candle) : Option ℚ × Option ℚ :=
  if candles.length < 14 then (some 0, some 0)
  else
    let window := candles.drop (candles.length - 14)
    let highs := window.map (·.high)
    let lows := window.map (·.low)
    let highest := highs.foldl max (highs.headD 0)
    let lowest := lows.foldl min (lows.headD 0)
    let lastClose := (window.map (·.close)).getLastD 0
    let k := (jdiv (lastClose - lowest) (highest - lowest)).map (· * 100)
    let d := k.map (fun kv => (kv + kv + kv) / 3)
    (k, d)

/-- `calculateEMA` (both variants, lines 124-133 / 138-146): 0 below `period`
prices, otherwise seeded at the price `period` bars back and folded with
smoothing `k = 2/(period+1)`. -/
def calculateEMA (closes : List ℚ) (period : ℕ) : ℚ :=
  if closes.length < period then 0
  else
    let k : ℚ := 2 / (period + 1)
    match closes.drop (closes.length - period) with
    | [] => 0
    | h :: t => t.foldl (fun e p => p * k + e * (1 - k)) h

/-- The MACD triple `{line, signal, histogram}`. -/
structure MACD where
  line : ℚ
  signal : ℚ
  histogram : ℚ
deriving DecidableEq, Repr

/-- `IndicatorManager.calculateMACD` (src/js/indicators.js lines 98-116):
zeros below 35 candles; `line = EMA12 - EMA26` over the whole series; the
"signal" is the plain average of the nine values `EMA12 - EMA26` computed over
`candles.slice(-(9-i+26), -(9-i))` for `i = 0..8` — the 26-candle windows
ending 9..1 bars back. -/
def calculateMACD (candles : List Candle) : MACD :=
  if candles.length < 35 then ⟨0, 0, 0⟩
  else
    let closes := candles.map (·.close)
    let len := closes.length
    let line := calculateEMA closes 12 - calculateEMA closes 26
    let signalPrices := (List.range 9).map (fun i =>
      let s := (closes.take (len - (9 - i))).drop (len - (9 - i + 26))
      calculateEMA s 12 - calculateEMA s 26)
    let signalLine := signalPrices.sum / 9
    ⟨line, signalLine, line - signalLine⟩

/-- Modelled from the spec: the MACD line of a close series
(`EMA(12) - EMA(26)`), used to build the historical line series that §4.2 says
the signal must be the EMA(9) of.  The corresponding code
(`calculateMACD`'s signal computation) deviates from this. -/
def macdLineSpec (closes : List ℚ) : ℚ :=
  calculateEMA closes 12 - calculateEMA closes 26

/-- Modelled from the spec: the MACD signal as "the 9-period EMA of the
historical line series" — the EMA(9) over the line values at the last nine
bars (oldest first, current bar last). -/
def macdSignalSpec (closes : List ℚ) : ℚ :=
  calculateEMA ((List.range 9).map (fun j => macdLineSpec (closes.take (closes.length - (8 - j))))) 9

/-! ## RiskManager gating (`shouldExecuteTrade`, src/js/script.js lines
772-824, duplicated verbatim in src/unnamed/part_004 lines 975-1027) -/

/-- A scheduled news blackout window `{hour, minute, duration}` (minutes). -/
structure NewsEvent where
  hour : ℕ
  minute : ℕ
  duration : ℕ
deriving DecidableEq, Repr

/-- The session/config fields `shouldExecuteTrade` reads.  `nowMinutes` is the
current UTC time in minutes since midnight; the Bollinger fields are the
snapshot from `getIndicators()`. -/
structure RiskState where
  nowMinutes : ℕ
  newsEvents : List NewsEvent
  volatility : ℚ
  totalTrades : ℕ
  maxTrades : ℕ
  stopLossEnabled : Bool
  takeProfitEnabled : Bool
  totalPnL : ℚ
  maxLoss : ℚ
  maxProfit : ℚ
  currentStake : ℚ
  balance : ℚ
  maxDrawdown : ℚ
  consecutiveLosses : ℕ
  maxConsecutiveLosses : ℕ
  bbUpper : ℚ
  bbMiddle : ℚ
  bbLower : ℚ
deriving DecidableEq, Repr

/-- What a gating denial does to the session: stop it, or trigger the adaptive
cooldown. -/
inductive RiskAction where
  | stop | cooldown
deriving DecidableEq, Repr

/-- `checkMarketConditions` (script.js lines 1422-1451): inside a news-event
window (`start ≤ now ≤ start + duration`, minutes since midnight), or a
volatility spike (`detectVolatilitySpike`: volatility > 3). -/
def checkMarketConditions (s : RiskState) : Bool :=
  s.newsEvents.any (fun e =>
    e.hour * 60 + e.minute ≤ s.nowMinutes ∧
      s.nowMinutes ≤ e.hour * 60 + e.minute + e.duration) ||
  decide (3 < s.volatility)

/-- Gating check 2: `totalTrades >= maxTrades`. -/
def riskCondMaxTrades (s : RiskState) : Bool := s.maxTrades ≤ s.totalTrades

/-- Gating check 3: `stopLossEnabled && totalPnL <= -maxLoss`. -/
def riskCondStopLoss (s : RiskState) : Bool :=
  s.stopLossEnabled && decide (s.totalPnL ≤ -s.maxLoss)

/-- Gating check 4: `takeProfitEnabled && totalPnL >= maxProfit`. -/
def riskCondTakeProfit (s : RiskState) : Bool :=
  s.takeProfitEnabled && decide (s.maxProfit ≤ s.totalPnL)

/-- Gating check 5: `currentStake > balance`. -/
def riskCondStake (s : RiskState) : Bool := s.balance < s.currentStake

/-- The drawdown percentage `balance > 0 ? totalPnL/balance*100 : 0`. -/
def drawdownPct (s : RiskState) : ℚ :=
  if 0 < s.balance then s.totalPnL / s.balance * 100 else 0

/-- Gating check 6: `drawdown <= -maxDrawdown`. -/
def riskCondDrawdown (s : RiskState) : Bool := drawdownPct s ≤ -s.maxDrawdown

/-- Gating check 7: `consecutiveLosses >= maxConsecutiveLosses`. -/
def riskCondLosses (s : RiskState) : Bool :=
  s.maxConsecutiveLosses ≤ s.consecutiveLosses

/-- Gating check 8: Bollinger band width over the middle band exceeds 10%.
(ℚ division; the JS NaN case `middle = 0 ∧ upper = lower` also compares
false there, matching this model.) -/
def riskCondBands (s : RiskState) : Bool :=
  10 < (s.bbUpper - s.bbLower) / s.bbMiddle * 100

/-- `shouldExecuteTrade`: the source's early-return chain, returning whether
the trade is allowed and, on denial, whether the session is stopped
(`stopTrading`) or the adaptive cooldown is triggered. -/
def shouldExecuteTrade (s : RiskState) : Bool × Option RiskAction :=
  if checkMarketConditions s then (false, some .cooldown)
  else if riskCondMaxTrades s then (false, some .stop)
  else if riskCondStopLoss s then (false, some .stop)
  else if riskCondTakeProfit s then (false, some .stop)
  else if riskCondStake s then (false, some .stop)
  else if riskCondDrawdown s then (false, some .cooldown)
  else if riskCondLosses s then (false, some .cooldown)
  else if riskCondBands s then (false, some .cooldown)
  else (true, none)

/-- The eight gating conditions in the documented order. -/
def riskConds (s : RiskState) : Fin 8 → Bool
  | 0 => checkMarketConditions s
  | 1 => riskCondMaxTrades s
  | 2 => riskCondStopLoss s
  | 3 => riskCondTakeProfit s
  | 4 => riskCondStake s
  | 5 => riskCondDrawdown s
  | 6 => riskCondLosses s
  | 7 => riskCondBands s

/-- The action each gating condition takes on denial: checks 2-5 stop the
session, checks 1 and 6-8 enter the adaptive cooldown. -/
def riskActionOf : Fin 8 → RiskAction
  | 0 => .cooldown
  | 1 => .stop
  | 2 => .stop
  | 3 => .stop
  | 4 => .stop
  | 5 => .cooldown
  | 6 => .cooldown
  | 7 => .cooldown

/-! ## Stake sizing (`adjustStakeBasedOnStrategy`, src/js/script.js lines
680-719, duplicated in src/unnamed/part_004 lines 869-908) -/

/-- Result of the last settled trade (`null` before the first settlement). -/
inductive TradeResult where
  | win | loss
deriving DecidableEq, Repr

/-- The session/config fields the stake-sizing step reads.  `positionSizing`
and `strategy` are the raw configuration strings. -/
structure StakeState where
  lastTradeResult : Option TradeResult
  initialStake : ℚ
  balance : ℚ
  totalPnL : ℚ
  volatility : ℚ
  positionSizing : String
  fixedFraction : ℚ
  strategy : String
  multiplier : ℚ
  wins : ℕ
  losses : ℕ
  totalTrades : ℕ

/-- `calculateOptimalStake` (src/js/script.js lines 1362-1369): Kelly-like
fraction from session counters, clamped into `[0.35, min(balance·kelly·0.1, 10)]`
and rounded to one decimal. -/
def calculateOptimalStake (s : StakeState) : ℚ :=
  let winRate : ℚ := if 0 < s.totalTrades then (s.wins : ℚ) / s.totalTrades else 1 / 2
  let avgWin : ℚ := if 0 < s.wins then s.totalPnL / s.wins else 85 / 100
  let avgLoss : ℚ := if 0 < s.losses then |s.totalPnL| / s.losses else 1
  let kellyFraction := (winRate * avgWin - (1 - winRate) * avgLoss) / avgWin
  roundTenth (max (35 / 100) (min (s.balance * kellyFraction * (1 / 10)) 10))

/-- `adjustStakeBasedOnStrategy`, returning the new `currentStake`: before any
settled trade the (rounded) initial stake is used unclamped; otherwise the
position-sizing policy and the martingale/d'Alembert overlay run, and the
result is clamped by `min(·, balance×0.1, 100)` then `max(·, 0.35)`, each
followed by `toFixed(1)`. -/
def adjustStakeBasedOnStrategy (s : StakeState) : ℚ :=
  match s.lastTradeResult with
  | none => roundTenth s.initialStake
  | some lastRes =>
      let drawdown : ℚ := if 0 < s.balance then s.totalPnL / s.balance * 100 else 0
      let volatilityFactor : ℚ := if 5 / 2 < s.volatility then 1 / 2 else 1
      let drawdownFactor : ℚ := if drawdown < -10 then 3 / 4 else 1
      let base : ℚ :=
        if s.positionSizing = "fixed" then
          s.balance * s.fixedFraction * volatilityFactor * drawdownFactor
        else if s.positionSizing = "volatility" then
          s.initialStake / (1 + s.volatility / 100) * volatilityFactor * drawdownFactor
        else
          calculateOptimalStake s * volatilityFactor * drawdownFactor
      let overlaid : ℚ :=
        if s.strategy = "martingale" then
          if lastRes = .loss then roundTenth (base * s.multiplier) else s.initialStake
        else if s.strategy = "dalembert" then
          if lastRes = .loss then roundTenth (base + s.initialStake)
          else roundTenth (max s.initialStake (base - s.initialStake))
        else base
      let clamped := roundTenth (min (min overlaid (s.balance * (1 / 10))) 100)
      roundTenth (max clamped (35 / 100))

/-! ## Dynamic strategy switching (`selectBestStrategy`, src/js/script.js
lines 1391-1416) -/

/-- Per-strategy performance record (`recentTrades` holds the last ≤ 20
results, `true` = win). -/
structure StratStats where
  wins : ℕ
  losses : ℕ
  recentTrades : List Bool
deriving DecidableEq, Repr

/-- The candidate list hard-coded in `selectBestStrategy`. -/
def strategiesList : List String :=
  ["martingale", "dalembert", "trend-follow", "mean-reversion",
   "rsi-strategy", "grid", "ml-based", "custom"]

/-- The recency-weighted win rate the source scores strategies by:
`(wins + recentWins×2) / (totalTrades + recentTrades.length×2) × 100`. -/
def weightedWinRate (st : StratStats) : ℚ :=
  ((st.wins : ℚ) + (st.recentTrades.count true : ℚ) * 2) /
    (((st.wins : ℚ) + st.losses) + (st.recentTrades.length : ℚ) * 2) * 100

/-- `winRate > bestScore` where `bestScore` starts at `-Infinity` (`none`). -/
def beatsScore (best : Option ℚ) (wr : ℚ) : Bool :=
  match best with
  | none => true
  | some q => q < wr

/-- One step of the `strategies.forEach` loop: skip strategies with fewer than
10 recorded trades, otherwise keep the higher weighted win rate. -/
def selectStep (stats : String → StratStats) (acc : String × Option ℚ)
    (name : String) : String × Option ℚ :=
  let st := stats name
  if st.wins + st.losses < 10 then acc
  else
    let wr := weightedWinRate st
    if beatsScore acc.2 wr then (name, some wr) else acc

/-- `selectBestStrategy`: fold the candidate list starting from the configured
strategy and `-Infinity`; switch only when the winner differs from the
configured strategy and its score exceeds 40. -/
def selectBestStrategy (stats : String → StratStats) (current : String) : String :=
  let best := strategiesList.foldl (selectStep stats) (current, none)
  match best.2 with
  | some score => if best.1 ≠ current ∧ 40 < score then best.1 else current
  | none => current

/-- The claim's plain "historical win rate" of a strategy:
`wins / (wins + losses) × 100`. -/
def histWinRate (st : StratStats) : ℚ :=
  (st.wins : ℚ) / ((st.wins : ℚ) + st.losses) * 100

/-- Example strategy-performance table: martingale 10W/10L with no recent
history (plain and weighted rate 50%), d'Alembert 9W/11L with two recent wins
(plain rate 45%, recency-weighted 325/6 ≈ 54.2%), all others untraded. -/
def exStats : String → StratStats := fun s =>
  if s = "martingale" then ⟨10, 10, []⟩
  else if s = "dalembert" then ⟨9, 11, [true, true]⟩
  else ⟨0, 0, []⟩

/-- Example candle series for the MACD computation: 34 flat candles at price
1 followed by one candle at price 2 (35 candles, the MACD minimum). -/
def candles35 : List Candle :=
  (List.replicate 34 (1 : ℚ) ++ [2]).map fun p => ⟨0, p, p, p, p, 0⟩

/-! ## Candle aggregation lemmas -/

lemma le_foldl_max_init (l : List ℚ) (a : ℚ) : a ≤ l.foldl max a := by
  induction l generalizing a with
  | nil => exact le_refl a
  | cons h t ih => exact le_trans (le_max_left a h) (ih (max a h))

lemma le_foldl_max_mem (l : List ℚ) (a x : ℚ) (h : x ∈ l) : x ≤ l.foldl max a := by
  induction l generalizing a with
  | nil => cases h
  | cons y t ih =>
      rcases List.mem_cons.mp h with rfl | hx
      · exact le_trans (le_max_right a x) (le_foldl_max_init t (max a x))
      · exact ih (max a y) hx

lemma foldl_min_le_init (l : List ℚ) (a : ℚ) : l.foldl min a ≤ a := by
  induction l generalizing a with
  | nil => exact le_refl a
  | cons h t ih => exact le_trans (ih (min a h)) (min_le_left a h)

lemma foldl_min_le_mem (l : List ℚ) (a x : ℚ) (h : x ∈ l) : l.foldl min a ≤ x := by
  induction l generalizing a with
  | nil => cases h
  | cons y t ih =>
      rcases List.mem_cons.mp h with rfl | hx
      · exact le_trans (foldl_min_le_init t (min a x)) (min_le_right a x)
      · exact ih (min a y) hx

/-- Merging a tick never changes the candle's bucket timestamp or open. -/
lemma foldl_mergeTick_timestamp_open (ts : List Tick) (c : Candle) :
    (ts.foldl mergeTick c).timestamp = c.timestamp ∧
      (ts.foldl mergeTick c).open_ = c.open_ := by
  induction ts generalizing c with
  | nil => exact ⟨rfl, rfl⟩
  | cons u us ih => simpa [mergeTick] using ih (mergeTick c u)

lemma foldl_mergeTick_high (ts : List Tick) (c : Candle) :
    (ts.foldl mergeTick c).high = (ts.map (·.price)).foldl max c.high := by
  induction ts generalizing c with
  | nil => rfl
  | cons u us ih => simpa [mergeTick] using ih (mergeTick c u)

lemma foldl_mergeTick_low (ts : List Tick) (c : Candle) :
    (ts.foldl mergeTick c).low = (ts.map (·.price)).foldl min c.low := by
  induction ts generalizing c with
  | nil => rfl
  | cons u us ih => simpa [mergeTick] using ih (mergeTick c u)

lemma foldl_mergeTick_close (ts : List Tick) (c : Candle) :
    (ts.foldl mergeTick c).close = (ts.map (·.price)).getLastD c.close := by
  induction ts generalizing c with
  | nil => rfl
  | cons u us ih =>
      rw [List.foldl_cons, ih (mergeTick c u), List.map_cons, List.getLastD_cons]
      rfl

lemma foldl_mergeTick_volume (ts : List Tick) (c : Candle) :
    (ts.foldl mergeTick c).volume = c.volume + (ts.map (·.volume)).sum := by
  induction ts generalizing c with
  | nil => simp
  | cons u us ih =>
      rw [List.foldl_cons, ih (mergeTick c u)]
      simp [mergeTick]
      ring

/-- While every incoming tick stays in the open candle's bucket, `addTick`
keeps a one-candle series and just merges. -/
lemma foldl_addTick_single (tf : ℕ) (ts : List Tick) (c : Candle)
    (hb : ∀ u ∈ ts, bucketOf tf u.time = c.timestamp) :
    ts.foldl (addTick tf) [c] = [ts.foldl mergeTick c] := by
  induction ts generalizing c with
  | nil => rfl
  | cons u us ih =>
      have hu : bucketOf tf u.time = c.timestamp := hb u (List.mem_cons_self u us)
      have step : addTick tf [c] u = [mergeTick c u] := by
        simp [addTick, hu]
      rw [List.foldl_cons, step, List.foldl_cons]
      exact ih (mergeTick c u) (fun v hv => by
        simpa [mergeTick] using hb v (List.mem_cons_of_mem u hv))

/-- C3: feeding a non-empty tick sequence that stays in one timeframe bucket
through `addTick` yields a single candle whose open is the first price, close
the last price, high the maximum price, low the minimum price (hence
`low ≤ price ≤ high` for every input tick) and volume the sum of the tick
volumes. -/
theorem C3_single_bucket_candle (tf : ℕ) (t : Tick) (ts : List Tick)
    (htf : 0 < tf)
    (hb : ∀ u ∈ t :: ts, bucketOf tf u.time = bucketOf tf t.time) :
    feedTicks tf (t :: ts) =
      [{ timestamp := bucketOf tf t.time,
         open_ := t.price,
         high := (ts.map (·.price)).foldl max t.price,
         low := (ts.map (·.price)).foldl min t.price,
         close := (ts.map (·.price)).getLastD t.price,
         volume := t.volume + (ts.map (·.volume)).sum }] ∧
    ∀ u ∈ t :: ts,
      (ts.map (·.price)).foldl min t.price ≤ u.price ∧
        u.price ≤ (ts.map (·.price)).foldl max t.price := by
  have hfirst : addTick tf [] t = [freshCandle (bucketOf tf t.time) t] := by
    simp [addTick]
  have hrest : ts.foldl (addTick tf) [freshCandle (bucketOf tf t.time) t] =
      [ts.foldl mergeTick (freshCandle (bucketOf tf t.time) t)] := by
    refine foldl_addTick_single tf ts _ (fun u hu => ?_)
    simpa [freshCandle] using hb u (List.mem_cons_of_mem t hu)
  constructor
  · show (t :: ts).foldl (addTick tf) [] = _
    rw [List.foldl_cons, hfirst, hrest]
    have hts := foldl_mergeTick_timestamp_open ts (freshCandle (bucketOf tf t.time) t)
    have hh := foldl_mergeTick_high ts (freshCandle (bucketOf tf t.time) t)
    have hl := foldl_mergeTick_low ts (freshCandle (bucketOf tf t.time) t)
    have hc := foldl_mergeTick_close ts (freshCandle (bucketOf tf t.time) t)
    have hv := foldl_mergeTick_volume ts (freshCandle (bucketOf tf t.time) t)
    have : ts.foldl mergeTick (freshCandle (bucketOf tf t.time) t) =
        { timestamp := bucketOf tf t.time, open_ := t.price,
          high := (ts.map (·.price)).foldl max t.price,
          low := (ts.map (·.price)).foldl min t.price,
          close := (ts.map (·.price)).getLastD t.price,
          volume := t.volume + (ts.map (·.volume)).sum } := by
      apply Candle.ext <;> simp_all [freshCandle]
    rw [this]
  · intro u hu
    rcases List.mem_cons.mp hu with rfl | hu'
    · exact ⟨foldl_min_le_init _ _, le_foldl_max_init _ _⟩
    · exact ⟨foldl_min_le_mem _ _ _ (List.mem_map_of_mem _ hu'),
        le_foldl_max_mem _ _ _ (List.mem_map_of_mem _ hu')⟩

/-- Witness for C3: three ticks in the 60s bucket starting at epoch 0 build
the candle open=5, high=9, low=2, close=9, volume=6. -/
theorem C3_single_bucket_candle_witness :
    feedTicks 60000 [⟨5, 100, 1⟩, ⟨2, 30000, 2⟩, ⟨9, 59999, 3⟩] =
      [{ timestamp := 0, open_ := 5, high := 9, low := 2, close := 9,
         volume := 6 }] := by
  have h := C3_single_bucket_candle 60000 ⟨5, 100, 1⟩ [⟨2, 30000, 2⟩, ⟨9, 59999, 3⟩]
    (by decide) (by decide)
  rw [h.1]
  norm_num [bucketOf, List.getLastD]

/-- C9: `addTick` keys the open candle only off the LAST stored candle's
bucket — a tick whose bucket differs from the last candle's is appended as a
fresh candle even if its bucket matches an older candle — and consequently a
non-monotone tick sequence produces a candle list whose bucket timestamps
(here [0, 60000, 0]) are neither strictly increasing nor duplicate-free. -/
theorem C9_non_monotone_buckets :
    (∀ (tf : ℕ) (cs : List Candle) (t : Tick) (c : Candle),
        cs.getLast? = some c →
        c.timestamp ≠ bucketOf tf t.time →
        cs.length < 100 →
        addTick tf cs t = cs ++ [freshCandle (bucketOf tf t.time) t]) ∧
    (feedTicks 60000 [⟨1, 0, 1⟩, ⟨2, 60000, 1⟩, ⟨3, 1, 1⟩]).map (·.timestamp) =
      [0, 60000, 0] ∧
    ¬ List.Sorted (· < ·)
        ((feedTicks 60000 [⟨1, 0, 1⟩, ⟨2, 60000, 1⟩, ⟨3, 1, 1⟩]).map (·.timestamp)) ∧
    ¬ List.Nodup
        ((feedTicks 60000 [⟨1, 0, 1⟩, ⟨2, 60000, 1⟩, ⟨3, 1, 1⟩]).map (·.timestamp)) := by
  refine ⟨?_, by decide, by decide, by decide⟩
  intro tf cs t c hlast hne hlen
  have hlen' : ¬ 100 < cs.length + 1 := by omega
  simp [addTick, hlast, hne, hlen', Ne.symm hne]

/-- Witness for C9: appending across a bucket change at a concrete state. -/
theorem C9_non_monotone_buckets_witness :
    addTick 60000 [⟨0, 1, 1, 1, 1, 1⟩] ⟨2, 60000, 1⟩ =
      [⟨0, 1, 1, 1, 1, 1⟩, freshCandle 60000 ⟨2, 60000, 1⟩] := by
  exact C9_non_monotone_buckets.1 60000 [⟨0, 1, 1, 1, 1, 1⟩] ⟨2, 60000, 1⟩
    ⟨0, 1, 1, 1, 1, 1⟩ (by decide) (by decide) (by decide)

/-! ## Pattern-detection order -/

lemma detectPattern3_eq_find (p2 p1 c : Candle) :
    detectPattern3 p2 p1 c =
      (patternRules.find? (fun r => r.2 p2 p1 c)).map Prod.fst := by
  unfold detectPattern3 patternRules
  cases hbe : bullEngulfCond p1 c
  · cases hbr : bearEngulfCond p1 c
    · cases hd : dojiCond c
      · cases hh : hammerCond c
        · cases hms : morningStarCond p2 p1 c
          · cases hss : shootingStarCond c <;> simp [List.find?, *]
          · simp [List.find?, *]
        · simp [List.find?, *]
      · simp [List.find?, *]
    · simp [List.find?, *]
  · simp [List.find?, *]

lemma detectPatternExt3_eq_find (p2 p1 c : Candle) :
    detectPatternExt3 p2 p1 c =
      (patternRulesExt.find? (fun r => r.2 p2 p1 c)).map Prod.fst := by
  unfold detectPatternExt3 patternRulesExt patternRules
  simp only [List.cons_append, List.nil_append]
  cases hbe : bullEngulfCond p1 c
  · cases hbr : bearEngulfCond p1 c
    · cases hd : dojiCond c
      · cases hh : hammerCond c
        · cases hms : morningStarCond p2 p1 c
          · cases hss : shootingStarCond c
            · cases hes : eveningStarCond p2 p1 c
              · cases hbh : bullHaramiCond p1 c
                · cases hrh : bearHaramiCond p1 c <;> simp [List.find?, *]
                · simp [List.find?, *]
              · simp [List.find?, *]
            · simp [List.find?, *]
          · simp [List.find?, *]
        · simp [List.find?, *]
      · simp [List.find?, *]
    · simp [List.find?, *]
  · simp [List.find?, *]

/-- C10: both `detectPattern` variants are first-match scans of their rule
lists in the documented order; in particular a final candle satisfying the
Doji body/range test that matches neither engulfing rule is classified Doji,
and Hammer/MorningStar/ShootingStar can only be returned when the Doji test
fails. -/
theorem C10_pattern_order (p2 p1 c : Candle) :
    (detectPattern3 p2 p1 c =
        (patternRules.find? (fun r => r.2 p2 p1 c)).map Prod.fst) ∧
    (detectPatternExt3 p2 p1 c =
        (patternRulesExt.find? (fun r => r.2 p2 p1 c)).map Prod.fst) ∧
    (dojiCond c = true → bullEngulfCond p1 c = false → bearEngulfCond p1 c = false →
      detectPattern3 p2 p1 c = some .doji ∧ detectPatternExt3 p2 p1 c = some .doji) ∧
    (∀ pat, pat = Pattern.hammer ∨ pat = .morningStar ∨ pat = .shootingStar →
      (detectPattern3 p2 p1 c = some pat ∨ detectPatternExt3 p2 p1 c = some pat) →
      dojiCond c = false) := by
  refine ⟨detectPattern3_eq_find p2 p1 c, detectPatternExt3_eq_find p2 p1 c, ?_, ?_⟩
  · intro hd hbe hbr
    constructor <;> simp [detectPattern3, detectPatternExt3, hd, hbe, hbr]
  · intro pat hpat hres
    cases hd : dojiCond c
    · rfl
    · exfalso
      cases hbe : bullEngulfCond p1 c <;>
        cases hbr : bearEngulfCond p1 c <;>
          rcases hres with h | h <;>
            rcases hpat with rfl | rfl | rfl <;>
              simp_all [detectPattern3, detectPatternExt3]

/-- Witness for C10: a concrete small-bodied candle that fails both engulfing
tests is classified Doji by both variants. -/
theorem C10_pattern_order_witness :
    detectPattern3 ⟨0, 1, 1, 1, 1, 0⟩ ⟨0, 1, 1, 1, 1, 0⟩ ⟨0, 1, 2, 0, 1, 0⟩ =
        some .doji ∧
      detectPatternExt3 ⟨0, 1, 1, 1, 1, 0⟩ ⟨0, 1, 1, 1, 1, 0⟩ ⟨0, 1, 2, 0, 1, 0⟩ =
        some .doji :=
  (C10_pattern_order ⟨0, 1, 1, 1, 1, 0⟩ ⟨0, 1, 1, 1, 1, 0⟩ ⟨0, 1, 2, 0, 1, 0⟩).2.2.1
    (by norm_num [dojiCond]) (by norm_num [bullEngulfCond])
    (by norm_num [bearEngulfCond])

/-! ## Candle-pattern signal confirmation -/

/-- C7: with `useCandlePatterns` enabled and a raw signal that wants to trade,
the filtered signal trades exactly when a concordant pattern was detected
(bullish patterns confirm CALL, bearish confirm PUT, Doji either; no pattern
or a discordant one suppresses the trade), and the trade direction is left
unchanged. -/
theorem C7_pattern_confirmation (sig : Signal) (pattern : Option Pattern)
    (hraw : sig.shouldTrade = true) :
    ((applyPatternFilter true sig pattern).shouldTrade = true ↔
        concordantPattern sig.tradeType pattern) ∧
    (applyPatternFilter true sig pattern).tradeType = sig.tradeType := by
  obtain ⟨st, tt⟩ := sig
  subst hraw
  constructor
  · show (confirmSignalWithPattern tt pattern = true) ↔ _
    cases pattern with
    | none =>
        simp [confirmSignalWithPattern, concordantPattern]
    | some pat =>
        cases tt <;> cases pat <;> simp [confirmSignalWithPattern, concordantPattern]
  · rfl

/-- Witness for C7: a CALL signal is confirmed by a Hammer and suppressed by a
BearishEngulfing. -/
theorem C7_pattern_confirmation_witness :
    ((applyPatternFilter true ⟨true, .call⟩ (some .hammer)).shouldTrade = true ↔
        concordantPattern TradeType.call (some .hammer)) ∧
      (applyPatternFilter true ⟨true, .call⟩ (some .hammer)).tradeType =
        TradeType.call :=
  C7_pattern_confirmation ⟨true, .call⟩ (some .hammer) rfl

/-! ## Risk-gating order -/

/-- The eight gating condition values in documented order, as a list. -/
def riskCondsList (s : RiskState) : List Bool :=
  [checkMarketConditions s, riskCondMaxTrades s, riskCondStopLoss s,
   riskCondTakeProfit s, riskCondStake s, riskCondDrawdown s,
   riskCondLosses s, riskCondBands s]

/-- The denial actions in the same order: checks 2-5 stop the session, the
others trigger the adaptive cooldown. -/
def riskActions : List RiskAction :=
  [.cooldown, .stop, .stop, .stop, .stop, .cooldown, .cooldown, .cooldown]

/-- C1: `shouldExecuteTrade` is exactly "first failing gating condition wins,
in the documented order": when no condition fails the trade is allowed, and
otherwise the verdict is a denial carrying the action (stop vs adaptive
cooldown) of the earliest failing condition. -/
theorem C1_risk_gating_order (s : RiskState) :
    shouldExecuteTrade s =
      match (riskCondsList s).findIdx? (fun b => b) with
      | none => (true, none)
      | some i => (false, some (riskActions.getD i .cooldown)) := by
  unfold shouldExecuteTrade riskCondsList riskActions
  cases h0 : checkMarketConditions s
  · cases h1 : riskCondMaxTrades s
    · cases h2 : riskCondStopLoss s
      · cases h3 : riskCondTakeProfit s
        · cases h4 : riskCondStake s
          · cases h5 : riskCondDrawdown s
            · cases h6 : riskCondLosses s
              · cases h7 : riskCondBands s <;> simp [List.findIdx?_cons, *]
              · simp [List.findIdx?_cons, *]
            · simp [List.findIdx?_cons, *]
          · simp [List.findIdx?_cons, *]
        · simp [List.findIdx?_cons, *]
      · simp [List.findIdx?_cons, *]
    · simp [List.findIdx?_cons, *]
  · simp [List.findIdx?_cons, *]

/-! ## Stake clamp bounds -/

lemma roundTenth_mono {q r : ℚ} (h : q ≤ r) : roundTenth q ≤ roundTenth r := by
  unfold roundTenth
  have hr : round (10 * q) ≤ round (10 * r) := by
    rw [round_eq, round_eq]
    exact Int.floor_le_floor (by linarith)
  have hc : ((round (10 * q) : ℤ) : ℚ) ≤ ((round (10 * r) : ℤ) : ℚ) :=
    Int.cast_le.mpr hr
  linarith

lemma roundTenth_int_div (k : ℤ) : roundTenth ((k : ℚ) / 10) = (k : ℚ) / 10 := by
  unfold roundTenth
  have h10 : (10 : ℚ) * ((k : ℚ) / 10) = (k : ℚ) := by field_simp
  rw [h10, round_intCast]

lemma roundTenth_of_thirtyfive : roundTenth (35 / 100) = 2 / 5 := by
  unfold roundTenth
  have : round ((10 : ℚ) * (35 / 100)) = 4 := by
    rw [round_eq]
    norm_num
  rw [this]
  norm_num

/-- The final two clamp lines of `adjustStakeBasedOnStrategy` force the stake
above `0.35` whatever came before them. -/
lemma clampTenth_lower (q b : ℚ) :
    35 / 100 ≤
      roundTenth (max (roundTenth (min (min q (b * (1 / 10))) 100)) (35 / 100)) := by
  have h := roundTenth_mono
    (le_max_right (roundTenth (min (min q (b * (1 / 10))) 100)) (35 / 100))
  rw [roundTenth_of_thirtyfive] at h
  linarith

/-- The final two clamp lines bound the stake by the rounded balance cap,
except that a stake clamped up from below lands on `0.4`. -/
lemma clampTenth_upper (q b : ℚ) :
    roundTenth (max (roundTenth (min (min q (b * (1 / 10))) 100)) (35 / 100)) ≤
      max (2 / 5) (roundTenth (min (b * (1 / 10)) 100)) := by
  have hmono : roundTenth (min (min q (b * (1 / 10))) 100) ≤
      roundTenth (min (b * (1 / 10)) 100) :=
    roundTenth_mono (min_le_min (min_le_right q (b * (1 / 10))) (le_refl 100))
  rcases le_or_lt (roundTenth (min (min q (b * (1 / 10))) 100)) (35 / 100) with h | h
  · rw [max_eq_right h, roundTenth_of_thirtyfive]
    exact le_max_left _ _
  · rw [max_eq_left h.le]
    have hk : roundTenth (roundTenth (min (min q (b * (1 / 10))) 100)) =
        roundTenth (min (min q (b * (1 / 10))) 100) := by
      unfold roundTenth
      exact roundTenth_int_div _
    rw [hk]
    exact le_max_of_le_right hmono

/-- C2 counterexample: the stake is NOT always in
`[0.35, min(balance×0.1, 100)]`.  Before any settled trade
(`lastTradeResult = null`) the initial stake is used with no clamping at all
(here 500 against a cap of 10), and with a small balance the `max(·, 0.35)`
applied AFTER the `min` drives the stake (0.4) above the claimed cap
`min(balance×0.1, 100) = 0.1`. -/
theorem C2_stake_counterexample :
    (adjustStakeBasedOnStrategy
        ⟨none, 500, 100, 0, 0, "kelly", 1 / 50, "rsi-strategy", 2, 0, 0, 0⟩ = 500 ∧
      ¬ adjustStakeBasedOnStrategy
          ⟨none, 500, 100, 0, 0, "kelly", 1 / 50, "rsi-strategy", 2, 0, 0, 0⟩ ≤
        min ((100 : ℚ) * (1 / 10)) 100) ∧
    (adjustStakeBasedOnStrategy
        ⟨some .loss, 1, 1, 0, 0, "fixed", 1 / 50, "rsi-strategy", 2, 0, 1, 1⟩ = 2 / 5 ∧
      ¬ adjustStakeBasedOnStrategy
          ⟨some .loss, 1, 1, 0, 0, "fixed", 1 / 50, "rsi-strategy", 2, 0, 1, 1⟩ ≤
        min ((1 : ℚ) * (1 / 10)) 100) := by
  have hA : adjustStakeBasedOnStrategy
      ⟨none, 500, 100, 0, 0, "kelly", 1 / 50, "rsi-strategy", 2, 0, 0, 0⟩ = 500 := by
    show roundTenth 500 = 500
    have : (500 : ℚ) = ((500 : ℤ) : ℚ) / 10 * 10 := by norm_num
    unfold roundTenth
    norm_num [round_eq]
  have hB : adjustStakeBasedOnStrategy
      ⟨some .loss, 1, 1, 0, 0, "fixed", 1 / 50, "rsi-strategy", 2, 0, 1, 1⟩ = 2 / 5 := by
    show roundTenth (max (roundTenth (min (min _ _) 100)) (35 / 100)) = 2 / 5
    norm_num [roundTenth, round_eq]
    rw [if_neg (by decide : ("rsi-strategy" : String) ≠ "martingale"),
        if_neg (by decide : ("rsi-strategy" : String) ≠ "dalembert")]
    norm_num
  refine ⟨⟨hA, ?_⟩, ⟨hB, ?_⟩⟩
  · rw [hA]; norm_num
  · rw [hB]; norm_num

/-- C2 (amended): whenever a previous trade result exists (so the clamp lines
actually run), the volatility reading is nonnegative and — under Kelly
sizing — the Kelly intermediate `avgWin` is nonzero (states where the JS
computation stays finite), the adjusted stake lies in
`[0.35, max(0.4, roundTenth(min(balance×0.1, 100)))]`: the lower clamp is
applied after the upper one, so the cap can be exceeded by the lower clamp
landing on 0.4, and rounding replaces the exact cap. -/
theorem C2_stake_bounds (s : StakeState)
    (hres : s.lastTradeResult ≠ none)
    (hvol : 0 ≤ s.volatility)
    (hkelly : s.positionSizing ≠ "fixed" → s.positionSizing ≠ "volatility" →
      ¬(0 < s.wins ∧ s.totalPnL = 0)) :
    35 / 100 ≤ adjustStakeBasedOnStrategy s ∧
      adjustStakeBasedOnStrategy s ≤
        max (2 / 5) (roundTenth (min (s.balance * (1 / 10)) 100)) := by
  rcases hlr : s.lastTradeResult with _ | lastRes
  · exact absurd hlr hres
  · constructor
    · show (35 : ℚ) / 100 ≤ adjustStakeBasedOnStrategy s
      unfold adjustStakeBasedOnStrategy
      rw [hlr]
      exact clampTenth_lower _ _
    · show adjustStakeBasedOnStrategy s ≤ _
      unfold adjustStakeBasedOnStrategy
      rw [hlr]
      exact clampTenth_upper _ _

/-- Witness for C2: the amended bounds at a concrete fixed-sizing state with
balance 200. -/
theorem C2_stake_bounds_witness :
    35 / 100 ≤ adjustStakeBasedOnStrategy
        ⟨some .loss, 1, 200, 0, 1, "fixed", 1 / 50, "rsi-strategy", 2, 0, 1, 1⟩ ∧
      adjustStakeBasedOnStrategy
          ⟨some .loss, 1, 200, 0, 1, "fixed", 1 / 50, "rsi-strategy", 2, 0, 1, 1⟩ ≤
        max (2 / 5) (roundTenth (min ((200 : ℚ) * (1 / 10)) 100)) :=
  C2_stake_bounds ⟨some .loss, 1, 200, 0, 1, "fixed", 1 / 50, "rsi-strategy", 2, 0, 1, 1⟩
    (by simp) (by norm_num) (fun h _ => absurd rfl h)

/-! ## Dynamic strategy switching -/

/-- Invariant of the `selectBestStrategy` fold: either nothing eligible beat
the incoming accumulator, or the accumulator holds an eligible strategy from
the list whose weighted win rate dominates every eligible strategy in the
list as well as the incoming score. -/
lemma selectStep_fold_spec (stats : String → StratStats) (l : List String)
    (b : String) (sc : Option ℚ) :
    (l.foldl (selectStep stats) (b, sc) = (b, sc) ∧
      ∀ s ∈ l, ¬ (stats s).wins + (stats s).losses < 10 →
        beatsScore sc (weightedWinRate (stats s)) = false) ∨
    (∃ r, l.foldl (selectStep stats) (b, sc) = (r, some (weightedWinRate (stats r))) ∧
      r ∈ l ∧ ¬ (stats r).wins + (stats r).losses < 10 ∧
      (∀ s ∈ l, ¬ (stats s).wins + (stats s).losses < 10 →
        weightedWinRate (stats s) ≤ weightedWinRate (stats r)) ∧
      (∀ q, sc = some q → q ≤ weightedWinRate (stats r))) := by
  induction l generalizing b sc with
  | nil => exact Or.inl ⟨rfl, by simp⟩
  | cons name l ih =>
      rw [List.foldl_cons]
      by_cases helig : (stats name).wins + (stats name).losses < 10
      · have hstep : selectStep stats (b, sc) name = (b, sc) := by
          simp [selectStep, helig]
        rw [hstep]
        rcases ih b sc with ⟨heq, hall⟩ | ⟨r, hfold, hmem, heligr, hmax, hsc⟩
        · exact Or.inl ⟨heq, fun s hs hse => by
            rcases List.mem_cons.mp hs with rfl | hs'
            · exact absurd helig (by omega)
            · exact hall s hs' hse⟩
        · refine Or.inr ⟨r, hfold, List.mem_cons_of_mem name hmem, heligr, ?_, hsc⟩
          intro s hs hse
          rcases List.mem_cons.mp hs with rfl | hs'
          · exact absurd helig (by omega)
          · exact hmax s hs' hse
      · cases hbeat : beatsScore sc (weightedWinRate (stats name))
        · have hstep : selectStep stats (b, sc) name = (b, sc) := by
            simp [selectStep, helig, hbeat]
          rw [hstep]
          have hq : ∀ q, sc = some q → weightedWinRate (stats name) ≤ q := by
            intro q hscq
            subst hscq
            simpa [beatsScore] using hbeat
          rcases ih b sc with ⟨heq, hall⟩ | ⟨r, hfold, hmem, heligr, hmax, hsc⟩
          · refine Or.inl ⟨heq, fun s hs hse => ?_⟩
            rcases List.mem_cons.mp hs with rfl | hs'
            · exact hbeat
            · exact hall s hs' hse
          · refine Or.inr ⟨r, hfold, List.mem_cons_of_mem name hmem, heligr, ?_, hsc⟩
            intro s hs hse
            rcases List.mem_cons.mp hs with rfl | hs'
            · cases hscn : sc with
              | none => exact absurd hbeat (by simp [beatsScore, hscn])
              | some q => exact le_trans (hq q hscn) (hsc q hscn)
            · exact hmax s hs' hse
        · have hstep : selectStep stats (b, sc) name =
              (name, some (weightedWinRate (stats name))) := by
            simp [selectStep, helig, hbeat]
          rw [hstep]
          have hq : ∀ q, sc = some q → q ≤ weightedWinRate (stats name) := by
            intro q hscq
            subst hscq
            have : q < weightedWinRate (stats name) := by
              simpa [beatsScore] using hbeat
            exact this.le
          rcases ih name (some (weightedWinRate (stats name))) with
            ⟨heq, hall⟩ | ⟨r, hfold, hmem, heligr, hmax, hsc⟩
          · refine Or.inr ⟨name, heq, List.mem_cons_self name l, helig, ?_, hq⟩
            intro s hs hse
            rcases List.mem_cons.mp hs with rfl | hs'
            · exact le_refl _
            · have := hall s hs' hse
              simpa [beatsScore, not_lt] using this
          · have hname : weightedWinRate (stats name) ≤ weightedWinRate (stats r) :=
              hsc _ rfl
            refine Or.inr ⟨r, hfold, List.mem_cons_of_mem name hmem, heligr, ?_, ?_⟩
            · intro s hs hse
              rcases List.mem_cons.mp hs with rfl | hs'
              · exact hname
              · exact hmax s hs' hse
            · intro q hscq
              exact le_trans (hq q hscq) hname

lemma weightedWinRate_exM : weightedWinRate ⟨10, 10, []⟩ = 50 := by
  norm_num [weightedWinRate]

lemma weightedWinRate_exD : weightedWinRate ⟨9, 11, [true, true]⟩ = 325 / 6 := by
  norm_num [weightedWinRate]

lemma exStats_foldl :
    strategiesList.foldl (selectStep exStats) ("rsi-strategy", none) =
      ("dalembert", some (325 / 6)) := by
  have hs1 : selectStep exStats ("rsi-strategy", none) "martingale" =
      ("martingale", some 50) := by
    show ("martingale", some (weightedWinRate ⟨10, 10, []⟩)) = ("martingale", some 50)
    rw [weightedWinRate_exM]
  have hb : beatsScore (some 50) (weightedWinRate ⟨9, 11, [true, true]⟩) = true := by
    rw [weightedWinRate_exD]
    norm_num [beatsScore]
  have hs2 : selectStep exStats ("martingale", some 50) "dalembert" =
      ("dalembert", some (325 / 6)) := by
    show (if beatsScore (some 50) (weightedWinRate ⟨9, 11, [true, true]⟩) then
            (("dalembert" : String), some (weightedWinRate ⟨9, 11, [true, true]⟩))
          else ("martingale", some 50)) = ("dalembert", some (325 / 6))
    rw [hb, weightedWinRate_exD]
    simp
  simp only [strategiesList, List.foldl_cons, List.foldl_nil]
  rw [hs1, hs2]
  rfl

lemma selectBest_exStats :
    selectBestStrategy exStats "rsi-strategy" = "dalembert" := by
  unfold selectBestStrategy
  rw [exStats_foldl]
  show (if ("dalembert" : String) ≠ "rsi-strategy" ∧ (40 : ℚ) < 325 / 6 then
          ("dalembert" : String) else "rsi-strategy") = "dalembert"
  rw [if_pos ⟨by decide, by norm_num⟩]

/-- C8 counterexample: at `exStats`, martingale is the unique eligible
strategy with the highest plain historical win rate (50% > 45%, both > 40,
differing from the configured strategy), yet `selectBestStrategy` returns
d'Alembert — the source scores by a recency-weighted rate, not the
historical win rate. -/
theorem C8_strategy_counterexample :
    selectBestStrategy exStats "rsi-strategy" = "dalembert" ∧
    10 ≤ (exStats "martingale").wins + (exStats "martingale").losses ∧
    (∀ s ∈ strategiesList, s ≠ "martingale" →
      10 ≤ (exStats s).wins + (exStats s).losses →
      histWinRate (exStats s) < histWinRate (exStats "martingale")) ∧
    40 < histWinRate (exStats "martingale") ∧
    "martingale" ≠ "rsi-strategy" ∧
    selectBestStrategy exStats "rsi-strategy" ≠ "martingale" := by
  refine ⟨selectBest_exStats, by decide, ?_, ?_, by decide,
    by rw [selectBest_exStats]; decide⟩
  · intro s hs hne helig
    fin_cases hs
    · exact absurd rfl hne
    · show histWinRate ⟨9, 11, [true, true]⟩ < histWinRate ⟨10, 10, []⟩
      norm_num [histWinRate]
    all_goals exact absurd helig (by decide)
  · show (40 : ℚ) < histWinRate ⟨10, 10, []⟩
    norm_num [histWinRate]

/-- C8 (amended): `selectBestStrategy` either keeps the configured strategy,
or returns a listed strategy with at least 10 recorded trades whose
recency-weighted win rate `(wins + 2·recentWins)/(trades + 2·recentCount)×100`
exceeds 40, differs from the configured one, and is maximal among all
eligible strategies. -/
theorem C8_strategy_switching (stats : String → StratStats) (current r : String)
    (h : selectBestStrategy stats current = r) :
    r = current ∨
    (r ∈ strategiesList ∧ 10 ≤ (stats r).wins + (stats r).losses ∧
      40 < weightedWinRate (stats r) ∧ r ≠ current ∧
      ∀ s ∈ strategiesList, 10 ≤ (stats s).wins + (stats s).losses →
        weightedWinRate (stats s) ≤ weightedWinRate (stats r)) := by
  rcases selectStep_fold_spec stats strategiesList current none with
    ⟨heq, _⟩ | ⟨r', hfold, hmem, heligr, hmax, _⟩
  · left
    rw [selectBestStrategy, heq] at h
    exact h.symm
  · rw [selectBestStrategy, hfold] at h
    have h' : (if r' ≠ current ∧ 40 < weightedWinRate (stats r') then r' else current)
        = r := h
    by_cases hcond : r' ≠ current ∧ 40 < weightedWinRate (stats r')
    · rw [if_pos hcond] at h'
      subst h'
      exact Or.inr ⟨hmem, by omega, hcond.2, hcond.1,
        fun s hs hse => hmax s hs (by omega)⟩
    · rw [if_neg hcond] at h'
      exact Or.inl h'.symm

/-- Witness for C8: the amended characterisation at the concrete table
`exStats` with configured strategy rsi-strategy. -/
theorem C8_strategy_switching_witness :
    "dalembert" = "rsi-strategy" ∨
    ("dalembert" ∈ strategiesList ∧
      10 ≤ (exStats "dalembert").wins + (exStats "dalembert").losses ∧
      40 < weightedWinRate (exStats "dalembert") ∧
      "dalembert" ≠ "rsi-strategy" ∧
      ∀ s ∈ strategiesList, 10 ≤ (exStats s).wins + (exStats s).losses →
        weightedWinRate (exStats s) ≤ weightedWinRate (exStats "dalembert")) :=
  C8_strategy_switching exStats "rsi-strategy" "dalembert" selectBest_exStats

/-! ## Divide-by-zero behaviour of the indicator duplicates -/

lemma foldl_max_replicate (n : ℕ) (a : ℚ) : (List.replicate n a).foldl max a = a := by
  induction n with
  | zero => rfl
  | succ m ih => rw [List.replicate_succ, List.foldl_cons, max_self]; exact ih

lemma foldl_min_replicate (n : ℕ) (a : ℚ) : (List.replicate n a).foldl min a = a := by
  induction n with
  | zero => rfl
  | succ m ih => rw [List.replicate_succ, List.foldl_cons, min_self]; exact ih

/-- C4: the divide-by-zero invariant FAILS in the source.  `calculateVolatility`
divides by the mean of the closes with no guard, so a zero-mean series makes
it non-finite (NaN/Infinity, `none` here) for every model of `Math.sqrt`; and
part_001's `calculateStochastic` divides by `highestHigh - lowestLow` with no
guard (its indicators.js sibling uses `|| 1`), so a flat 14-candle range makes
both `%K` and `%D` NaN. -/
theorem C4_divide_by_zero_nan :
    (∀ f : ℚ → ℚ,
      calculateVolatility f (List.replicate 20 ⟨0, 0, 0, 0, 0, 0⟩) = none) ∧
    calculateStochastic_p1 (List.replicate 14 ⟨0, 1, 1, 1, 1, 0⟩) =
      (none, none) := by
  constructor
  · intro f
    norm_num [calculateVolatility, jdiv, List.map_replicate]
  · have hh : (List.replicate 14 (1 : ℚ)).head?.getD 0 = 1 := rfl
    have hl : (List.replicate 14 (1 : ℚ)).getLast?.getD 0 = 1 := rfl
    norm_num [calculateStochastic_p1, jdiv, List.map_replicate, hh, hl,
      foldl_max_replicate, foldl_min_replicate]

/-! ## RSI convention on a flat series -/

lemma gainsLosses_fold_const (ps : List (ℚ × ℚ)) (g lo : ℚ)
    (h : ∀ p ∈ ps, p.1 = p.2) :
    ps.foldl
      (fun gl p =>
        if p.1 < p.2 then (gl.1 + (p.2 - p.1), gl.2) else (gl.1, gl.2 + (p.1 - p.2)))
      (g, lo) = (g, lo) := by
  induction ps generalizing g lo with
  | nil => rfl
  | cons p ps ih =>
      have hp : p.1 = p.2 := h p (List.mem_cons_self p ps)
      rw [List.foldl_cons, if_neg (by rw [hp]; exact lt_irrefl _)]
      have : (g, lo + (p.1 - p.2)) = (g, lo) := by rw [hp]; ring_nf
      rw [this]
      exact ih g lo (fun q hq => h q (List.mem_cons_of_mem p hq))

lemma gainsLosses_replicate (n : ℕ) (a : ℚ) :
    gainsLosses (List.replicate n a) = (0, 0) := by
  unfold gainsLosses
  apply gainsLosses_fold_const
  intro p hp
  have hz := List.of_mem_zip hp
  have h1 := List.eq_of_mem_replicate hz.1
  have h2 : p.2 = a := by
    cases n with
    | zero => exact absurd hz.1 (by simp)
    | succ m =>
        have hm := hz.2
        rw [List.replicate_succ] at hm
        exact List.eq_of_mem_replicate (by simpa using hm)
  rw [h1, h2]

/-- C6: on 15 identical closes the two RSI duplicates disagree with the spec
and with each other: indicators.js resolves `rs = avgGain/(avgLoss || 1) = 0`
giving RSI 0 (minimal, not neutral), while part_001 resolves
`rs = avgLoss === 0 ? 100 : ...` giving RSI 10000/101 ≈ 99.01; neither is the
specified neutral 50.  (Volatility is 0 as claimed: below 20 candles the
guard returns the 0 default.) -/
theorem C6_flat_rsi_bug :
    calculateRSI (List.replicate 15 ⟨0, 1, 1, 1, 1, 0⟩) = 0 ∧
    calculateRSI_p1 (List.replicate 15 (1 : ℚ)) = some (10000 / 101) ∧
    (∀ f : ℚ → ℚ,
      calculateVolatility f (List.replicate 15 ⟨0, 1, 1, 1, 1, 0⟩) = some 0) ∧
    (0 : ℚ) ≠ 50 ∧ (10000 / 101 : ℚ) ≠ 50 := by
  refine ⟨?_, ?_, ?_, by norm_num, by norm_num⟩
  · norm_num [calculateRSI, List.map_replicate, gainsLosses_replicate]
  · norm_num [calculateRSI_p1, gainsLosses_replicate]
  · intro f
    norm_num [calculateVolatility]

/-! ## MACD signal computation -/

lemma emaFold_const (k a : ℚ) (n : ℕ) :
    (List.replicate n a).foldl (fun e p => p * k + e * (1 - k)) a = a := by
  induction n with
  | zero => rfl
  | succ m ih =>
      rw [List.replicate_succ, List.foldl_cons]
      have h : a * k + a * (1 - k) = a := by ring
      rw [h]
      exact ih

lemma calculateEMA_replicate (n p : ℕ) (a : ℚ) (hp : 0 < p) (hpn : p ≤ n) :
    calculateEMA (List.replicate n a) p = a := by
  unfold calculateEMA
  rw [List.length_replicate, if_neg (by omega)]
  have hd : (List.replicate n a).drop (n - p) = List.replicate p a := by
    rw [List.drop_replicate]
    congr 1
    omega
  rw [hd]
  obtain ⟨m, rfl⟩ : ∃ m, p = m + 1 := ⟨p - 1, by omega⟩
  rw [List.replicate_succ]
  exact emaFold_const _ a m

lemma calculateEMA_replicate_append (n p : ℕ) (a b : ℚ) (hp : 2 ≤ p)
    (hpn : p ≤ n + 1) :
    calculateEMA (List.replicate n a ++ [b]) p =
      b * (2 / ((p : ℚ) + 1)) + a * (1 - 2 / ((p : ℚ) + 1)) := by
  unfold calculateEMA
  rw [List.length_append, List.length_replicate, List.length_singleton,
    if_neg (by omega)]
  have hd : (List.replicate n a ++ [b]).drop (n + 1 - p) =
      List.replicate (p - 1) a ++ [b] := by
    rw [List.drop_append_eq_append_drop, List.drop_replicate, List.length_replicate,
      (show n + 1 - p - n = 0 by omega), List.drop_zero,
      (show n - (n + 1 - p) = p - 1 by omega)]
  rw [hd]
  obtain ⟨m, rfl⟩ : ∃ m, p = m + 2 := ⟨p - 2, by omega⟩
  rw [(show m + 2 - 1 = m + 1 by omega), List.replicate_succ, List.cons_append]
  show (List.replicate m a ++ [b]).foldl _ a = _
  rw [List.foldl_append, emaFold_const, List.foldl_cons, List.foldl_nil]

lemma candles35_closes :
    candles35.map (·.close) = List.replicate 34 (1 : ℚ) ++ [2] := by
  unfold candles35
  rw [List.map_map]
  have h : ((·.close) ∘ fun p => (⟨0, p, p, p, p, 0⟩ : Candle)) = id := rfl
  rw [h, List.map_id]

lemma macd_slice_const (i : ℕ) (hi : i < 9) :
    ((List.replicate 34 (1 : ℚ) ++ [2]).take
        ((List.replicate 34 (1 : ℚ) ++ [2]).length - (9 - i))).drop
      ((List.replicate 34 (1 : ℚ) ++ [2]).length - (9 - i + 26)) =
    List.replicate 26 1 := by
  rw [List.length_append, List.length_replicate, List.length_singleton]
  rw [(show 34 + 1 - (9 - i) = 26 + i by omega),
    (show 34 + 1 - (9 - i + 26) = i by omega)]
  rw [List.take_append_eq_append_take, List.take_replicate, List.length_replicate,
    (show 26 + i - 34 = 0 by omega), List.take_zero, List.append_nil,
    (show (26 + i) ⊓ 34 = 26 + i by omega), List.drop_replicate,
    (show 26 + i - i = 26 by omega)]

/-- C5: the MACD signal line in the source is NOT the 9-period EMA of the
historical MACD line series: on `candles35` (34 flat closes then one rise)
indicators.js returns signal 0 — the plain average of the nine line values
over the 26-candle windows ending 9..1 bars back — whereas the EMA(9) of the
line values at the last nine bars (the spec's definition) is 28/1755 ≠ 0.
(The part_001 duplicate references an undefined variable in its signal
computation and cannot produce the spec value either.) -/
theorem C5_macd_signal_bug :
    calculateMACD candles35 = ⟨28 / 351, 0, 28 / 351⟩ ∧
    macdSignalSpec (candles35.map (·.close)) = 28 / 1755 ∧
    (28 / 1755 : ℚ) ≠ 0 := by
  refine ⟨?_, ?_, by norm_num⟩
  · simp only [calculateMACD, candles35_closes]
    rw [if_neg (by norm_num [candles35])]
    have hmap : (List.range 9).map (fun i =>
        calculateEMA (((List.replicate 34 (1 : ℚ) ++ [2]).take
            ((List.replicate 34 (1 : ℚ) ++ [2]).length - (9 - i))).drop
          ((List.replicate 34 (1 : ℚ) ++ [2]).length - (9 - i + 26))) 12 -
        calculateEMA (((List.replicate 34 (1 : ℚ) ++ [2]).take
            ((List.replicate 34 (1 : ℚ) ++ [2]).length - (9 - i))).drop
          ((List.replicate 34 (1 : ℚ) ++ [2]).length - (9 - i + 26))) 26) =
        List.replicate 9 (0 : ℚ) := by
      rw [List.eq_replicate_iff]
      refine ⟨by simp, ?_⟩
      intro b hb
      simp only [List.mem_map, List.mem_range] at hb
      obtain ⟨i, hi, rfl⟩ := hb
      rw [macd_slice_const i hi,
        calculateEMA_replicate 26 12 1 (by omega) (by omega),
        calculateEMA_replicate 26 26 1 (by omega) (by omega)]
      norm_num
    rw [hmap,
      calculateEMA_replicate_append 34 12 1 2 (by omega) (by omega),
      calculateEMA_replicate_append 34 26 1 2 (by omega) (by omega),
      List.sum_replicate]
    show MACD.mk _ _ _ = _
    rw [MACD.mk.injEq]
    norm_num
  · rw [candles35_closes]
    unfold macdSignalSpec macdLineSpec
    have htake : ∀ j, j < 8 →
        (List.replicate 34 (1 : ℚ) ++ [2]).take
          ((List.replicate 34 (1 : ℚ) ++ [2]).length - (8 - j)) =
        List.replicate (27 + j) 1 := by
      intro j hj
      rw [List.length_append, List.length_replicate, List.length_singleton,
        List.take_append_eq_append_take, List.take_replicate, List.length_replicate,
        (show 34 + 1 - (8 - j) - 34 = 0 by omega), List.take_zero, List.append_nil,
        (show (34 + 1 - (8 - j)) ⊓ 34 = 27 + j by omega)]
    have htake8 :
        (List.replicate 34 (1 : ℚ) ++ [2]).take
          ((List.replicate 34 (1 : ℚ) ++ [2]).length - (8 - 8)) =
        List.replicate 34 (1 : ℚ) ++ [2] := by
      apply List.take_of_length_le
      omega
    have hr : List.range 9 = [0, 1, 2, 3, 4, 5, 6, 7, 8] := rfl
    have hser : (List.range 9).map (fun j =>
        calculateEMA ((List.replicate 34 (1 : ℚ) ++ [2]).take
            ((List.replicate 34 (1 : ℚ) ++ [2]).length - (8 - j))) 12 -
        calculateEMA ((List.replicate 34 (1 : ℚ) ++ [2]).take
            ((List.replicate 34 (1 : ℚ) ++ [2]).length - (8 - j))) 26) =
        List.replicate 8 (0 : ℚ) ++ [28 / 351] := by
      rw [hr]
      simp only [List.map_cons, List.map_nil]
      rw [htake 0 (by omega), htake 1 (by omega), htake 2 (by omega),
        htake 3 (by omega), htake 4 (by omega), htake 5 (by omega),
        htake 6 (by omega), htake 7 (by omega), htake8]
      rw [calculateEMA_replicate 27 12 1 (by omega) (by omega),
        calculateEMA_replicate 27 26 1 (by omega) (by omega),
        calculateEMA_replicate 28 12 1 (by omega) (by omega),
        calculateEMA_replicate 28 26 1 (by omega) (by omega),
        calculateEMA_replicate 29 12 1 (by omega) (by omega),
        calculateEMA_replicate 29 26 1 (by omega) (by omega),
        calculateEMA_replicate 30 12 1 (by omega) (by omega),
        calculateEMA_replicate 30 26 1 (by omega) (by omega),
        calculateEMA_replicate 31 12 1 (by omega) (by omega),
        calculateEMA_replicate 31 26 1 (by omega) (by omega),
        calculateEMA_replicate 32 12 1 (by omega) (by omega),
        calculateEMA_replicate 32 26 1 (by omega) (by omega),
        calculateEMA_replicate 33 12 1 (by omega) (by omega),
        calculateEMA_replicate 33 26 1 (by omega) (by omega),
        calculateEMA_replicate 34 12 1 (by omega) (by omega),
        calculateEMA_replicate 34 26 1 (by omega) (by omega),
        calculateEMA_replicate_append 34 12 1 2 (by omega) (by omega),
        calculateEMA_replicate_append 34 26 1 2 (by omega) (by omega)]
      rw [(show List.replicate 8 (0 : ℚ) ++ [28 / 351] =
        [0, 0, 0, 0, 0, 0, 0, 0, 28 / 351] from rfl)]
      push_cast
      norm_num
    rw [hser, calculateEMA_replicate_append 8 9 0 (28 / 351) (by omega) (by omega)]
    norm_num

end Stinnnbt
